import Mathlib

/-!
Verification of the derex.runner core: a shallow embedding of
`src/derex/runner/project.py`, `src/derex/runner/cli.py` and
`src/derex/runner/utils.py`, together with theorems settling the
spec claims about project-root resolution, directory hashing,
image-tag derivation, run-mode persistence, plugin aggregation and
compose invocation.
-/

namespace DerexRunner

/-!
## Filesystem model

Absolute paths are lists of components below the filesystem root
(`[]` stands for `/`, `["a", "b"]` for `/a/b`, and `Path.parent`
is `List.dropLast`, with the root being its own parent as in
`pathlib`).  A filesystem node is either a regular file carrying
its byte content (modelled as a `String`) or a directory carrying
its ordered entry list (the order `Path.iterdir` enumerates).
-/

inductive FSNode where
  | file (content : String)
  | dir (entries : List (String × FSNode))

/-- First entry with the given name, as directory lookup. -/
def lookupEntry : List (String × FSNode) → String → Option FSNode
  | [], _ => none
  | (n, node) :: rest, name => if n = name then some node else lookupEntry rest name

/-- Resolve a path against a node, descending through directories. -/
def fsLookup : FSNode → List String → Option FSNode
  | node, [] => some node
  | FSNode.file _, _ :: _ => none
  | FSNode.dir entries, name :: rest =>
    match lookupEntry entries name with
    | some child => fsLookup child rest
    | none => none

/-- `Path.is_file`: the path resolves to a regular file. -/
def isFile (fs : FSNode) (path : List String) : Bool :=
  match fsLookup fs path with
  | some (FSNode.file _) => true
  | _ => false

/-- `Path.is_dir`: the path resolves to a directory. -/
def isDir (fs : FSNode) (path : List String) : Bool :=
  match fsLookup fs path with
  | some (FSNode.dir _) => true
  | _ => false

/-- The entry list of the directory at `path` (empty if not a directory);
the order models the enumeration order of `Path.iterdir`. -/
def dirEntries (fs : FSNode) (path : List String) : List (String × FSNode) :=
  match fsLookup fs path with
  | some (FSNode.dir entries) => entries
  | _ => []

/-- Fresh subtree created when writing to a path whose entries are absent. -/
def fsCreate : List String → String → FSNode
  | [], content => FSNode.file content
  | name :: rest, content => FSNode.dir [(name, fsCreate rest content)]

/-- `Path.write_text`: overwrite the regular file at `path` with `content`,
creating it if absent.  Writing at a directory node, or below a regular
file, raises in Python; both are modelled as leaving the tree unchanged
(no theorem below exercises those branches). -/
def fsWrite : List String → String → FSNode → FSNode
  | [], _, FSNode.dir es => FSNode.dir es
  | [], content, FSNode.file _ => FSNode.file content
  | _ :: _, _, FSNode.file f => FSNode.file f
  | name :: rest, content, FSNode.dir entries =>
    if (lookupEntry entries name).isSome then
      FSNode.dir (entries.map fun e => if e.1 = name then (e.1, fsWrite rest content e.2) else e)
    else
      FSNode.dir (entries ++ [(name, fsCreate rest content)])

/-!
## Project-root resolution (`project.py`, `find_project_root`)
-/

/-- Modelled from the spec: `CONF_FILENAME` is imported from
`derex.runner.utils`, whose copy under src/ does not define it; the value
comes from the `Project` class docstring ("a directory with a
`derex.config.yaml` file").  The claims only rely on it being a fixed
name. -/
def CONF_FILENAME : String := "derex.config.yaml"

/-- Error taxonomy of the spec (§7).  Both are raised as `ValueError` in
the Python source, from two distinct raise sites with distinct messages;
the constructors carry the path interpolated into each message. -/
inductive ProjectError where
  | projectNotFound (start : List String)
  | configurationError (config_path : List String)
deriving DecidableEq

/-- The `while current != current.parent` walk of `find_project_root`,
structurally on the reversed component list of `current`: dropping the
head of the reversed list is exactly `current = current.parent`, and the
reversed list running empty is `current == current.parent` — the
filesystem root, which the loop leaves without testing. -/
def findRootLoop (fs : FSNode) : List String → Option (List String)
  | [] => none
  | c :: rest =>
    if isFile fs ((c :: rest).reverse ++ [CONF_FILENAME]) then some (c :: rest).reverse
    else findRootLoop fs rest

/-- `find_project_root`: walk up from `path`; raise (`ValueError`, spec
taxonomy `ProjectNotFoundError`) if the walk exhausts without a hit. -/
def find_project_root (fs : FSNode) (path : List String) : Except ProjectError (List String) :=
  match findRootLoop fs path.reverse with
  | some r => Except.ok r
  | none => Except.error (ProjectError.projectNotFound path)

/-!
## Directory hashing (`project.py`, `get_requirements_hash`)

`hashlib.sha256` is Python standard library, external to this repository;
the digest is modelled as a parameter `sha256hex : String → String`
applied to the byte stream accumulated by the `hasher.update` calls
(`m.update(a); m.update(b)` feeds the concatenation `a ++ b`).
-/

/-- The `for file in path.iterdir(): if file.is_file(): hasher.update(...)`
loop: fold the contents of direct-child regular files, in enumeration
order, onto the accumulated byte stream; non-files are skipped. -/
def hashUpdateLoop : List (String × FSNode) → String → String
  | [], acc => acc
  | (_, FSNode.file c) :: rest, acc => hashUpdateLoop rest (acc ++ c)
  | (_, FSNode.dir _) :: rest, acc => hashUpdateLoop rest acc

/-- `get_requirements_hash`: digest of the contents of the regular files
directly inside `path`. -/
def get_requirements_hash (sha256hex : String → String) (fs : FSNode) (path : List String) : String :=
  sha256hex (hashUpdateLoop (dirEntries fs path) "")

/-- Modelled from the spec: `get_dir_hash` is imported from
`derex.runner.utils` but the copy of that module under src/ does not
define it.  Spec §4.1: "given a directory, produce a deterministic digest
over the concatenation of the byte contents of its direct-child regular
files, in a stable (implementation-defined but consistent) enumeration
order" — the same shape as `get_requirements_hash`. -/
def get_dir_hash (sha256hex : String → String) (fs : FSNode) (path : List String) : String :=
  sha256hex (hashUpdateLoop (dirEntries fs path) "")

/-- The direct-child regular files of a directory listing: name and
content, in enumeration order, subdirectories excluded. -/
def regularFiles : List (String × FSNode) → List (String × String)
  | [] => []
  | (n, FSNode.file c) :: rest => (n, c) :: regularFiles rest
  | (_, FSNode.dir _) :: rest => regularFiles rest

/-!
## The Project model (`project.py`, `Project.__init__`)

The YAML parser is Python's external `yaml` library; it is modelled as a
parameter `yamlLoad : String → List (String × String)` turning the
configuration file's text into a key/value mapping (an association
list, looked up with `List.lookup`).
-/

structure Project where
  root : List String
  config : List (String × String)
  base_image : String
  final_base_image : String
  name : String
  local_compose : Option (List String)
  requirements_dir : Option (List String)
  themes_dir : Option (List String)
  settings_dir : Option (List String)
  fixtures_dir : Option (List String)
  requirements_image_tag : String
  themes_image_tag : String
  image_tag : String
  mysql_db_name : String

/-- Text of the file at `path` (`""` when not a regular file; the only
use is at the configuration path, which `find_project_root` has
certified to be a regular file). -/
def confFileText (fs : FSNode) (path : List String) : String :=
  match fsLookup fs path with
  | some (FSNode.file c) => c
  | _ => ""

/-- Body of `Project.__init__` after `find_project_root` has produced
`root` (source lines 120–167). -/
def projectFromRoot (sha256hex : String → String)
    (yamlLoad : String → List (String × String))
    (fs : FSNode) (root : List String) : Except ProjectError Project :=
  let config_path := root ++ [CONF_FILENAME]
  let config := yamlLoad (confFileText fs config_path)
  let base_image := (List.lookup "base_image" config).getD "derex/openedx-ironwood:latest"
  let final_base_image := (List.lookup "final_base_image" config).getD "derex/openedx-nostatic:latest"
  match List.lookup "project_name" config with
  | none => Except.error (ProjectError.configurationError config_path)
  | some name =>
    let local_compose :=
      if isFile fs (root ++ ["docker-compose.yml"]) then some (root ++ ["docker-compose.yml"]) else none
    let requirements_image_tag :=
      if isDir fs (root ++ ["requirements"]) then
        name ++ "/openedx-requirements:" ++ (get_requirements_hash sha256hex fs (root ++ ["requirements"])).take 6
      else base_image
    let themes_image_tag :=
      if isDir fs (root ++ ["themes"]) then
        name ++ "/openedx-themes:" ++ (get_dir_hash sha256hex fs (root ++ ["themes"])).take 6
      else requirements_image_tag
    Except.ok
      { root := root
        config := config
        base_image := base_image
        final_base_image := final_base_image
        name := name
        local_compose := local_compose
        requirements_dir := if isDir fs (root ++ ["requirements"]) then some (root ++ ["requirements"]) else none
        themes_dir := if isDir fs (root ++ ["themes"]) then some (root ++ ["themes"]) else none
        settings_dir := if isDir fs (root ++ ["settings"]) then some (root ++ ["settings"]) else none
        fixtures_dir := if isDir fs (root ++ ["fixtures"]) then some (root ++ ["fixtures"]) else none
        requirements_image_tag := requirements_image_tag
        themes_image_tag := themes_image_tag
        image_tag := themes_image_tag
        mysql_db_name := (List.lookup "mysql_db_name" config).getD (name ++ "_edxapp") }

/-- `Project.__init__`: resolve the root, then build the project. -/
def Project.init (sha256hex : String → String)
    (yamlLoad : String → List (String × String))
    (fs : FSNode) (path : List String) : Except ProjectError Project :=
  match find_project_root fs path with
  | Except.ok root => projectFromRoot sha256hex yamlLoad fs root
  | Except.error e => Except.error e

/-!
## Run-mode status persistence (`project.py`, `Project.runmode`)
-/

inductive ProjectRunMode where
  | debug
  | production
deriving DecidableEq

/-- `ProjectRunMode.__members__` as the list of member names; `debug`
comes first ("The first is the default"). -/
def ProjectRunMode.members : List String := ["debug", "production"]

/-- `ProjectRunMode[s]`: the member with name `s` (callers guard with a
`__members__` membership test; the default arm is never reached there). -/
def ProjectRunMode.ofNameD (s : String) : ProjectRunMode :=
  if s = "production" then ProjectRunMode.production else ProjectRunMode.debug

/-- `value.name` of an enum member. -/
def ProjectRunMode.pyName : ProjectRunMode → String
  | ProjectRunMode.debug => "debug"
  | ProjectRunMode.production => "production"

/-- Warnings emitted through `logger.warn` while resolving the run mode. -/
inductive Warning where
  | invalidStatusFile (content : String)
  | invalidConfigDefault (value : String)
deriving DecidableEq

/-- `Project._get_status`: text of the status file under the project
root, when that file exists.  (If the path named a directory the Python
`read_text` would raise; the status paths used below are regular files.) -/
def Project._get_status (p : Project) (fs : FSNode) (name : String) : Option String :=
  match fsLookup fs (p.root ++ [name]) with
  | some (FSNode.file c) => some c
  | _ => none

/-- `Project._set_status`: persist a status value under the project root. -/
def Project._set_status (p : Project) (fs : FSNode) (name value : String) : FSNode :=
  fsWrite (p.root ++ [name]) value fs

/-- Source lines 82–92 of the `runmode` getter: resolve the configured
`default_runmode` (warned and skipped when not a member name, skipped
silently when falsy) and finally the hard-coded first member `debug`. -/
def Project.runmodeDefault (p : Project) : ProjectRunMode × List Warning :=
  match List.lookup "default_runmode" p.config with
  | some d =>
    if d ≠ "" then
      if d ∈ ProjectRunMode.members then (ProjectRunMode.ofNameD d, [])
      else (ProjectRunMode.debug, [Warning.invalidConfigDefault d])
    else (ProjectRunMode.debug, [])
  | none => (ProjectRunMode.debug, [])

/-- The `runmode` getter: the status file's exact text, when it names a
member, wins; otherwise a warning is recorded and resolution falls
through to `runmodeDefault`.  The second component collects the
`logger.warn` calls in emission order. -/
def Project.runmode (p : Project) (fs : FSNode) : ProjectRunMode × List Warning :=
  match p._get_status fs "runmode" with
  | some mode_str =>
    if mode_str ∈ ProjectRunMode.members then (ProjectRunMode.ofNameD mode_str, [])
    else
      let rest := p.runmodeDefault
      (rest.1, Warning.invalidStatusFile mode_str :: rest.2)
  | none => p.runmodeDefault

/-- The `runmode` setter: persist `value.name` in the `runmode` status
file. -/
def Project.set_runmode (p : Project) (fs : FSNode) (value : ProjectRunMode) : FSNode :=
  p._set_status fs "runmode" value.pyName

/-!
## Plugin aggregation and compose invocation (`cli.py`, `run_compose`)

A registered plugin exposes `settings()`, a mapping from variant name to
a zero-argument provider of a compose-file argument list; in this pure
embedding the provider is identified with the list it returns, and the
mapping is an association list (absent key = `dict.get` returning
`None`).  `plugin_manager.get_plugins()` is modelled as the plugin list
in registration order.  `compose.cli.main.main`, the external compose
runner, is a parameter `main` taking the argument vector it reads from
`sys.argv`; an exception it raises is an `Except.error`.
-/

structure Plugin where
  className : String
  settings : List (String × List String)

/-- The `for plugin in reversed(...)` body: look up the variant in the
plugin's settings; a present provider (always truthy in Python, even
when it returns `[]`) has its fragment list appended to the
accumulator, an absent one is skipped. -/
def aggLoop (variant : String) : List Plugin → List String → List String
  | [], acc => acc
  | p :: rest, acc =>
    match List.lookup variant p.settings with
    | some frags => aggLoop variant rest (acc ++ frags)
    | none => aggLoop variant rest acc

/-- `settings[variant]` after the aggregation loop of `run_compose`
(source lines 49–54): plugins are visited in reverse registration
order, starting from the empty list. -/
def aggregateFragments (plugins : List Plugin) (variant : String) : List String :=
  aggLoop variant plugins.reverse []

/-- The mutable process state the invocation touches: `sys.argv`. -/
structure SysState where
  argv : List String

/-- `cli.run_compose` (source lines 44–69), minus the external
`create_deps` side effect: build the argument vector, swap it into
`sys.argv`, run the compose runner (or just print on `dry_run`), and
restore `sys.argv` in the `finally` block — also when `main` raises.
Returns the propagated outcome, the final `sys.argv` state, and the
lines echoed by this part of the function. -/
def cli_run_compose (main : List String → Except String Unit)
    (plugins : List Plugin) (compose_extra_opts args : List String)
    (variant : String) (dry_run : Bool) (s : SysState) :
    Except String Unit × SysState × List String :=
  let old_argv := s.argv
  let newArgv := ["docker-compose"] ++ aggregateFragments plugins variant ++ compose_extra_opts ++ args
  let body :=
    if dry_run then (Except.ok (), ["Would have run", String.intercalate " " newArgv])
    else (main newArgv, ["Running " ++ String.intercalate " " newArgv])
  (body.1, { argv := old_argv }, body.2)

/-!
## `utils.py`: `run_compose`, `yaml_opts`, `asbool`
-/

/-- Resource path returned by `pkg_resources.resource_filename` for the
services template (external resolution to an absolute path omitted). -/
def services_yml_path : String := "templates/docker-compose-services.yml"

/-- Resource path for the administrative-services template. -/
def admin_yml_path : String := "templates/docker-compose-admin.yml"

/-- The truthy tokens frozenset. -/
def truthy : List String := ["t", "true", "y", "yes", "on", "1"]

/-- Python `str.strip()`: drop leading and trailing whitespace. -/
def pyStrip (s : String) : String :=
  String.mk (((s.data.dropWhile Char.isWhitespace).reverse.dropWhile Char.isWhitespace).reverse)

/-- Python `str.lower()`: lower-case every character. -/
def pyLower (s : String) : String :=
  String.mk (s.data.map Char.toLower)

/-- The values `asbool` is applied to: `None`, a `bool`, or a string
(`os.environ.get(key, True)` yields the string when the variable is set
and the `True` default when absent). -/
inductive AsboolArg where
  | none
  | bool (b : Bool)
  | str (s : String)

/-- `asbool`: `None` is false, a `bool` is itself, and a string is
stripped, lowered and tested against the truthy tokens. -/
def asbool : AsboolArg → Bool
  | AsboolArg.none => false
  | AsboolArg.bool b => b
  | AsboolArg.str s => truthy.contains (pyLower (pyStrip s))

/-- `yaml_opts`: the services compose file, plus the admin compose file
when `asbool(os.environ.get("DEREX_ADMIN_SERVICES", True))` holds;
`env` is the variable's value, `Option.none` when unset. -/
def yaml_opts (env : Option String) : List String :=
  let result := ["-f", services_yml_path]
  if asbool (match env with | some s => AsboolArg.str s | none => AsboolArg.bool true) then
    result ++ ["-f", admin_yml_path]
  else result

/-- `utils.run_compose` (source lines 9–16): same `sys.argv` swap and
`finally` restore around the external runner, with `yaml_opts` as the
fragment source. -/
def utils_run_compose (main : List String → Except String Unit)
    (env : Option String) (args : List String) (s : SysState) :
    Except String Unit × SysState :=
  let old_argv := s.argv
  let newArgv := ["docker-compose"] ++ yaml_opts env ++ args
  (main newArgv, { argv := old_argv })

/-!
## Theorems
-/

/-- Concatenation of the contents of a name/content file listing. -/
def contentsConcat : List (String × String) → String
  | [] => ""
  | (_, c) :: rest => c ++ contentsConcat rest

theorem hashUpdateLoop_eq (es : List (String × FSNode)) :
    ∀ acc, hashUpdateLoop es acc = acc ++ contentsConcat (regularFiles es) := by
  induction es with
  | nil => intro acc; simp [hashUpdateLoop, regularFiles, contentsConcat]
  | cons e rest ih =>
    obtain ⟨n, node⟩ := e
    cases node <;> intro acc <;>
      simp [hashUpdateLoop, regularFiles, contentsConcat, ih, String.append_assoc]

/-- C2: the directory hash is a deterministic digest over the
concatenation of the byte contents of the directory's direct-child
regular files (subdirectories and non-files excluded) in the stable
enumeration order: two directories whose regular-file listings agree
(names and bytes) hash identically, whatever their subdirectories. -/
theorem get_requirements_hash_deterministic (sha256hex : String → String)
    (fs1 fs2 : FSNode) (d1 d2 : List String)
    (h : regularFiles (dirEntries fs1 d1) = regularFiles (dirEntries fs2 d2)) :
    get_requirements_hash sha256hex fs1 d1 = get_requirements_hash sha256hex fs2 d2 := by
  unfold get_requirements_hash
  rw [hashUpdateLoop_eq, hashUpdateLoop_eq, h]

/-- A hashed directory whose second entry is a subdirectory. -/
def hashWitnessFs1 : FSNode :=
  FSNode.dir [("requirements", FSNode.dir
    [("base.txt", FSNode.file "mypkg==1.0"), ("sub", FSNode.dir [("x", FSNode.file "zzz")])])]

/-- A directory with the same regular files but different subdirectories. -/
def hashWitnessFs2 : FSNode :=
  FSNode.dir [("requirements", FSNode.dir
    [("base.txt", FSNode.file "mypkg==1.0"), ("other", FSNode.dir [])])]

theorem get_requirements_hash_deterministic_witness :
    regularFiles (dirEntries hashWitnessFs1 ["requirements"])
      = regularFiles (dirEntries hashWitnessFs2 ["requirements"])
    ∧ get_requirements_hash (fun s => s) hashWitnessFs1 ["requirements"]
      = get_requirements_hash (fun s => s) hashWitnessFs2 ["requirements"] :=
  ⟨by rfl, get_requirements_hash_deterministic (fun s => s) _ _ _ _ (by rfl)⟩

theorem aggLoop_eq (variant : String) (l : List Plugin) :
    ∀ acc, aggLoop variant l acc
      = acc ++ (l.map fun p => (List.lookup variant p.settings).getD []).flatten := by
  induction l with
  | nil => intro acc; simp [aggLoop]
  | cons p rest ih =>
    intro acc
    unfold aggLoop
    cases h : List.lookup variant p.settings <;> simp [h, ih]

/-- C7: plugin aggregation iterates the registered plugins in reverse
registration order, appending each plugin's fragment list for the
requested variant (plugins with no provider for the variant, or an
empty fragment list, contribute nothing); for P1, P2 registered in that
order with fragments F1, F2 the final compose file list is F2 ++ F1. -/
theorem plugin_aggregation_order (variant : String) (plugins : List Plugin) :
    (aggregateFragments plugins variant
       = (plugins.reverse.map fun p => (List.lookup variant p.settings).getD []).flatten)
    ∧ (∀ P1 P2 F1 F2, List.lookup variant P1.settings = some F1 →
         List.lookup variant P2.settings = some F2 →
         aggregateFragments [P1, P2] variant = F2 ++ F1) := by
  constructor
  · simpa using aggLoop_eq variant plugins.reverse []
  · intro P1 P2 F1 F2 h1 h2
    simp [aggregateFragments, aggLoop, h1, h2]

theorem plugin_aggregation_order_witness :
    aggregateFragments
      [{ className := "BaseConfig", settings := [("services", ["-f", "base.yml"])] },
       { className := "ExtraConfig", settings := [("services", ["-f", "extra.yml"])] }]
      "services" = ["-f", "extra.yml"] ++ ["-f", "base.yml"] :=
  (plugin_aggregation_order "services" []).2
    { className := "BaseConfig", settings := [("services", ["-f", "base.yml"])] }
    { className := "ExtraConfig", settings := [("services", ["-f", "extra.yml"])] }
    ["-f", "base.yml"] ["-f", "extra.yml"] (by rfl) (by rfl)

/-- C8: the compose invocation is exactly the base tool name, then the
aggregated fragments for the variant, then the extra options, then the
user arguments; a dry run prints the vector and never consults the
external runner, a real run hands exactly that vector to the runner. -/
theorem compose_invocation_vector (main : List String → Except String Unit)
    (plugins : List Plugin) (extra args : List String) (variant : String) (s : SysState) :
    (cli_run_compose main plugins extra args variant false s
       = (main (["docker-compose"] ++ aggregateFragments plugins variant ++ extra ++ args),
          { argv := s.argv },
          ["Running " ++ String.intercalate " "
            (["docker-compose"] ++ aggregateFragments plugins variant ++ extra ++ args)]))
    ∧ (cli_run_compose main plugins extra args variant true s
       = (Except.ok (), { argv := s.argv },
          ["Would have run", String.intercalate " "
            (["docker-compose"] ++ aggregateFragments plugins variant ++ extra ++ args)])) :=
  ⟨rfl, rfl⟩

/-- C10: whether the delegated runner returns normally or raises,
`sys.argv` observed after either `run_compose` equals its value before
the call — the temporary replacement is always undone by the `finally`
block. -/
theorem sys_argv_restored (main : List String → Except String Unit)
    (plugins : List Plugin) (extra args uargs : List String) (variant : String)
    (dry_run : Bool) (env : Option String) (s s2 : SysState) :
    (cli_run_compose main plugins extra args variant dry_run s).2.1 = s
    ∧ (utils_run_compose main env uargs s2).2 = s2 := by
  constructor
  · cases s; cases dry_run <;> rfl
  · cases s2; rfl

/-- C9: the `DEREX_ADMIN_SERVICES` toggle is truthy exactly when its
stripped, case-lowered value is one of t, true, y, yes, on, 1; an unset
variable resolves to the default `True`, so the admin fragments are
included, and any other string excludes them. -/
theorem admin_services_toggle (s : String) :
    (asbool (AsboolArg.str s) = true ↔ pyLower (pyStrip s) ∈ truthy)
    ∧ yaml_opts Option.none = ["-f", services_yml_path, "-f", admin_yml_path]
    ∧ (pyLower (pyStrip s) ∉ truthy → yaml_opts (some s) = ["-f", services_yml_path]) := by
  refine ⟨?_, by rfl, ?_⟩
  · simp [asbool]
  · intro h
    simp [yaml_opts, asbool, h]

theorem admin_services_toggle_witness :
    (pyLower (pyStrip "off") ∉ truthy)
    ∧ (asbool (AsboolArg.str " TRUE ") = true ↔ pyLower (pyStrip " TRUE ") ∈ truthy)
    ∧ yaml_opts (some "off") = ["-f", services_yml_path] :=
  ⟨by decide, (admin_services_toggle " TRUE ").1,
   (admin_services_toggle "off").2.2 (by decide)⟩

theorem findRootLoop_eq_none (fs : FSNode) (r : List String) :
    findRootLoop fs r = none ↔
      ∀ t, t <:+ r → t ≠ [] → isFile fs (t.reverse ++ [CONF_FILENAME]) = false := by
  induction r with
  | nil =>
    constructor
    · intro _ t ht hne
      rw [List.suffix_nil] at ht
      exact absurd ht hne
    · intro _; rfl
  | cons c rest ih =>
    simp only [findRootLoop]
    by_cases hf : isFile fs ((c :: rest).reverse ++ [CONF_FILENAME]) = true
    · rw [if_pos hf]
      constructor
      · intro h; simp at h
      · intro hall
        rw [hall (c :: rest) (List.suffix_refl _) (List.cons_ne_nil c rest)] at hf
        exact absurd hf Bool.false_ne_true
    · rw [if_neg hf]
      simp only [Bool.not_eq_true] at hf
      rw [ih]
      constructor
      · intro h t ht hne
        rcases List.suffix_cons_iff.mp ht with heq | hsuf
        · rw [heq]; exact hf
        · exact h t hsuf hne
      · intro h t ht hne
        exact h t (ht.trans (List.suffix_cons c rest)) hne

theorem findRootLoop_eq_some (fs : FSNode) (r t : List String)
    (h2 : t ≠ []) (h3 : isFile fs (t.reverse ++ [CONF_FILENAME]) = true)
    (h1 : t <:+ r)
    (h4 : ∀ u, u <:+ r → t.length < u.length →
        isFile fs (u.reverse ++ [CONF_FILENAME]) = false) :
    findRootLoop fs r = some t.reverse := by
  revert h1 h4
  induction r with
  | nil =>
    intro h1 _
    rw [List.suffix_nil] at h1
    exact absurd h1 h2
  | cons c rest ih =>
    intro h1 h4
    simp only [findRootLoop]
    by_cases hf : isFile fs ((c :: rest).reverse ++ [CONF_FILENAME]) = true
    · rw [if_pos hf]
      rcases List.suffix_cons_iff.mp h1 with heq | hsuf
      · rw [heq]
      · exfalso
        have hlt : t.length < (c :: rest).length :=
          Nat.lt_of_le_of_lt hsuf.length_le (by simp)
        rw [h4 (c :: rest) (List.suffix_refl _) hlt] at hf
        exact absurd hf Bool.false_ne_true
    · rw [if_neg hf]
      rcases List.suffix_cons_iff.mp h1 with heq | hsuf
      · exfalso; rw [heq] at h3; exact hf h3
      · exact ih hsuf (fun u hu hlt => h4 u (hu.trans (List.suffix_cons c rest)) hlt)

/-- C3 (amended): root resolution walks upward from the starting
directory and returns the first ancestor (nearest, i.e. the longest
prefix) strictly below the filesystem root that contains the
configuration file; ancestors at the filesystem root are never
examined, so when the walk reaches the root without a match — even if
the root itself holds the file — it fails with `ProjectNotFoundError`
naming the start. -/
theorem find_project_root_correct (fs : FSNode) (start : List String) :
    (∀ anc, anc ∈ start.inits → anc ≠ [] →
        isFile fs (anc ++ [CONF_FILENAME]) = true →
        (∀ q, q ∈ start.inits → anc.length < q.length →
            isFile fs (q ++ [CONF_FILENAME]) = false) →
        find_project_root fs start = Except.ok anc)
    ∧ ((∀ q, q ∈ start.inits → q ≠ [] → isFile fs (q ++ [CONF_FILENAME]) = false) →
        find_project_root fs start = Except.error (ProjectError.projectNotFound start)) := by
  constructor
  · intro anc hmem hne hfile hmax
    have hpre : anc <+: start := (List.mem_inits _ _).mp hmem
    have hsuf : anc.reverse <:+ start.reverse := List.reverse_suffix.mpr hpre
    have h := findRootLoop_eq_some fs start.reverse anc.reverse
      (by simpa using hne) (by simpa using hfile) hsuf ?_
    · unfold find_project_root
      simp only [List.reverse_reverse] at h
      rw [h]
    · intro u hu hlen
      have hu' : u.reverse <+: start := by
        rw [← List.reverse_suffix]; simpa using hu
      exact hmax u.reverse ((List.mem_inits _ _).mpr hu') (by simpa using hlen)
  · intro hall
    unfold find_project_root
    rw [(findRootLoop_eq_none fs start.reverse).mpr ?_]
    intro t ht hne
    have ht' : t.reverse <+: start := by
      rw [← List.reverse_suffix]; simpa using ht
    exact hall t.reverse ((List.mem_inits _ _).mpr ht') (by simpa using hne)

/-- A tree with the configuration file at `/home/proj` and the walk
started two levels below it. -/
def rootWalkWitnessFs : FSNode :=
  FSNode.dir [("home", FSNode.dir [("proj", FSNode.dir
    [(CONF_FILENAME, FSNode.file "project_name: w"),
     ("src", FSNode.dir [("deep", FSNode.dir [])])])])]

theorem find_project_root_correct_witness :
    (["home", "proj"] ∈ (["home", "proj", "src", "deep"] : List String).inits)
    ∧ find_project_root rootWalkWitnessFs ["home", "proj", "src", "deep"]
        = Except.ok ["home", "proj"] :=
  ⟨by decide,
   (find_project_root_correct rootWalkWitnessFs ["home", "proj", "src", "deep"]).1
     ["home", "proj"] (by decide) (by decide) (by decide) (by decide)⟩

/-- A tree whose only configuration file sits at the filesystem root. -/
def rootConfFs : FSNode :=
  FSNode.dir [(CONF_FILENAME, FSNode.file "project_name: c"), ("a", FSNode.dir [])]

/-- C3 counterexample to the claim as stated: the configuration file
exists at the filesystem root — an ancestor of the start `/a` — yet
resolution raises `ProjectNotFoundError` instead of returning that
ancestor, because the walk leaves the loop at the root without testing
it. -/
theorem find_project_root_root_counterexample :
    isFile rootConfFs ([] ++ [CONF_FILENAME]) = true
    ∧ find_project_root rootConfFs ["a"]
        = Except.error (ProjectError.projectNotFound ["a"]) :=
  ⟨by rfl, by rfl⟩

/-- C1: for every successfully constructed project, tag derivation
follows the fixed fallback chain: a `requirements` subdirectory under
root yields `"{project_name}/openedx-requirements:"` followed by the
first 6 characters of the requirements hash, otherwise
`requirements_image_tag` is exactly `base_image`; a `themes`
subdirectory yields `"{project_name}/openedx-themes:"` followed by the
first 6 characters of the themes hash, otherwise `themes_image_tag` is
`requirements_image_tag`; and `image_tag` always equals
`themes_image_tag`. -/
theorem tag_derivation_chain (sha256hex : String → String)
    (yamlLoad : String → List (String × String)) (fs : FSNode)
    (path : List String) (p : Project)
    (h : Project.init sha256hex yamlLoad fs path = Except.ok p) :
    (isDir fs (p.root ++ ["requirements"]) = true →
        p.requirements_image_tag
          = p.name ++ "/openedx-requirements:"
              ++ (get_requirements_hash sha256hex fs (p.root ++ ["requirements"])).take 6)
    ∧ (isDir fs (p.root ++ ["requirements"]) = false →
        p.requirements_image_tag = p.base_image)
    ∧ (isDir fs (p.root ++ ["themes"]) = true →
        p.themes_image_tag
          = p.name ++ "/openedx-themes:"
              ++ (get_dir_hash sha256hex fs (p.root ++ ["themes"])).take 6)
    ∧ (isDir fs (p.root ++ ["themes"]) = false →
        p.themes_image_tag = p.requirements_image_tag)
    ∧ p.image_tag = p.themes_image_tag := by
  unfold Project.init at h
  cases hf : find_project_root fs path with
  | error e => rw [hf] at h; exact absurd h (by simp)
  | ok root =>
    rw [hf] at h
    unfold projectFromRoot at h
    cases hn : List.lookup "project_name"
        (yamlLoad (confFileText fs (root ++ [CONF_FILENAME]))) with
    | none =>
      simp only [hn] at h
      exact Except.noConfusion h
    | some name =>
      simp only [hn] at h
      rw [Except.ok.injEq] at h
      subst h
      refine ⟨fun hdir => ?_, fun hdir => ?_, fun hdir => ?_, fun hdir => ?_, ?_⟩
      · simp only at hdir ⊢; simp [hdir]
      · simp only at hdir ⊢; simp [hdir]
      · simp only at hdir ⊢; simp [hdir]
      · simp only at hdir ⊢; simp [hdir]
      · rfl

/-- Root tree of the C1 witness: a project with a `requirements`
directory and no `themes` directory. -/
def tagWitnessFs : FSNode :=
  FSNode.dir [("proj", FSNode.dir
    [(CONF_FILENAME, FSNode.file "project_name: wproj"),
     ("requirements", FSNode.dir [("base.txt", FSNode.file "pkg==1")])])]

/-- The project `Project.init` produces on `tagWitnessFs` with the
identity digest. -/
def tagWitnessProject : Project :=
  { root := ["proj"]
    config := [("project_name", "wproj")]
    base_image := "derex/openedx-ironwood:latest"
    final_base_image := "derex/openedx-nostatic:latest"
    name := "wproj"
    local_compose := none
    requirements_dir := some ["proj", "requirements"]
    themes_dir := none
    settings_dir := none
    fixtures_dir := none
    requirements_image_tag := "wproj/openedx-requirements:pkg==1"
    themes_image_tag := "wproj/openedx-requirements:pkg==1"
    image_tag := "wproj/openedx-requirements:pkg==1"
    mysql_db_name := "wproj_edxapp" }

theorem tag_derivation_chain_witness :
    Project.init (fun s => s) (fun _ => [("project_name", "wproj")]) tagWitnessFs ["proj"]
      = Except.ok tagWitnessProject
    ∧ tagWitnessProject.requirements_image_tag
        = tagWitnessProject.name ++ "/openedx-requirements:"
            ++ (get_requirements_hash (fun s => s) tagWitnessFs
                  (tagWitnessProject.root ++ ["requirements"])).take 6
    ∧ tagWitnessProject.themes_image_tag = tagWitnessProject.requirements_image_tag
    ∧ tagWitnessProject.image_tag = tagWitnessProject.themes_image_tag :=
  ⟨by rfl,
   (tag_derivation_chain (fun s => s) (fun _ => [("project_name", "wproj")])
       tagWitnessFs ["proj"] tagWitnessProject (by rfl)).1 (by rfl),
   (tag_derivation_chain (fun s => s) (fun _ => [("project_name", "wproj")])
       tagWitnessFs ["proj"] tagWitnessProject (by rfl)).2.2.2.1 (by rfl),
   (tag_derivation_chain (fun s => s) (fun _ => [("project_name", "wproj")])
       tagWitnessFs ["proj"] tagWitnessProject (by rfl)).2.2.2.2⟩

/-- C4: a configuration mapping lacking the `project_name` key makes
construction fail at load time with the spec taxonomy's
`ConfigurationError` (a `ValueError` naming the configuration path in
the source), whatever the other fields hold. -/
theorem missing_project_name_fails (sha256hex : String → String)
    (yamlLoad : String → List (String × String)) (fs : FSNode)
    (path root : List String) (c : String)
    (hf : find_project_root fs path = Except.ok root)
    (hc : fsLookup fs (root ++ [CONF_FILENAME]) = some (FSNode.file c))
    (hn : List.lookup "project_name" (yamlLoad c) = none) :
    Project.init sha256hex yamlLoad fs path
      = Except.error (ProjectError.configurationError (root ++ [CONF_FILENAME])) := by
  have ht : confFileText fs (root ++ [CONF_FILENAME]) = c := by
    unfold confFileText; rw [hc]
  simp only [Project.init, hf, projectFromRoot, ht, hn]

/-- Root tree of the C4 witness: the configuration file parses to a
mapping that has `base_image` but no `project_name`. -/
def noNameFs : FSNode :=
  FSNode.dir [("proj", FSNode.dir [(CONF_FILENAME, FSNode.file "base_image: b")])]

theorem missing_project_name_fails_witness :
    Project.init (fun s => s) (fun _ => [("base_image", "b")]) noNameFs ["proj"]
      = Except.error (ProjectError.configurationError (["proj"] ++ [CONF_FILENAME])) :=
  missing_project_name_fails (fun s => s) (fun _ => [("base_image", "b")]) noNameFs
    ["proj"] ["proj"] "base_image: b" (by rfl) (by rfl) (by rfl)

theorem lookupEntry_map_update (es : List (String × FSNode)) (name : String)
    (f : FSNode → FSNode) :
    lookupEntry (es.map fun e => if e.1 = name then (e.1, f e.2) else e) name
      = (lookupEntry es name).map f := by
  induction es with
  | nil => rfl
  | cons e rest ih =>
    obtain ⟨n, node⟩ := e
    simp only [List.map_cons]
    by_cases hn : n = name
    · subst hn
      rw [if_pos rfl]
      simp [lookupEntry, ih]
    · rw [if_neg hn]
      simp [lookupEntry, hn, ih]

theorem lookupEntry_append (es1 es2 : List (String × FSNode)) (name : String)
    (h : lookupEntry es1 name = none) :
    lookupEntry (es1 ++ es2) name = lookupEntry es2 name := by
  induction es1 with
  | nil => rfl
  | cons e rest ih =>
    obtain ⟨n, node⟩ := e
    by_cases hn : n = name
    · simp [lookupEntry, hn] at h
    · simp only [lookupEntry, hn, if_false, if_neg hn] at h ⊢
      exact ih h

/-- Writing a file directly under an existing directory, at a path that
does not currently name a directory, makes a subsequent lookup of that
path return the written file. -/
theorem fsLookup_fsWrite (root : List String) (fname content : String) :
    ∀ (fs : FSNode) (es : List (String × FSNode)),
    fsLookup fs root = some (FSNode.dir es) →
    (∀ ds, fsLookup fs (root ++ [fname]) ≠ some (FSNode.dir ds)) →
    fsLookup (fsWrite (root ++ [fname]) content fs) (root ++ [fname])
      = some (FSNode.file content) := by
  induction root with
  | nil =>
    intro fs es hdir hnot
    cases fs with
    | file c => exact FSNode.noConfusion (Option.some.inj hdir)
    | dir entries =>
      simp only [List.nil_append] at hnot ⊢
      simp only [fsWrite]
      by_cases hl : (lookupEntry entries fname).isSome
      · rw [if_pos hl]
        simp only [fsLookup]
        rw [lookupEntry_map_update]
        obtain ⟨child, hchild⟩ := Option.isSome_iff_exists.mp hl
        rw [hchild]
        cases child with
        | file c => rfl
        | dir ds =>
          exfalso
          exact hnot ds (by simp only [fsLookup]; rw [hchild])
      · rw [if_neg hl]
        simp only [fsLookup]
        rw [lookupEntry_append entries _ fname (Option.not_isSome_iff_eq_none.mp hl)]
        simp [lookupEntry, fsCreate, fsLookup]
  | cons r rrest ih =>
    intro fs es hdir hnot
    cases fs with
    | file c => exact Option.noConfusion hdir
    | dir entries =>
      simp only [fsLookup] at hdir
      cases hle : lookupEntry entries r with
      | none => rw [hle] at hdir; exact Option.noConfusion hdir
      | some child =>
        rw [hle] at hdir
        simp only [List.cons_append, fsWrite]
        have hsome : (lookupEntry entries r).isSome := by rw [hle]; rfl
        rw [if_pos hsome]
        simp only [fsLookup]
        rw [lookupEntry_map_update, hle]
        simp only [Option.map_some']
        exact ih child es hdir
          (fun ds h => hnot ds (by
            simp only [List.cons_append, fsLookup]
            rw [hle]
            exact h))

/-- C5: on a project whose configuration sets no `default_runmode`,
setting runmode to `production` and then reading runmode on the same
project root returns `production` (and no warning): the persisted
status round-trips. -/
theorem runmode_write_read_roundtrip (fs : FSNode) (p : Project)
    (es : List (String × FSNode))
    (hroot : fsLookup fs p.root = some (FSNode.dir es))
    (hnotdir : isDir fs (p.root ++ ["runmode"]) = false)
    (_hnodefault : List.lookup "default_runmode" p.config = none) :
    p.runmode (p.set_runmode fs ProjectRunMode.production)
      = (ProjectRunMode.production, []) := by
  have hnot : ∀ ds, fsLookup fs (p.root ++ ["runmode"]) ≠ some (FSNode.dir ds) := by
    intro ds h
    unfold isDir at hnotdir
    rw [h] at hnotdir
    exact Bool.noConfusion hnotdir
  have hw := fsLookup_fsWrite p.root "runmode" "production" fs es hroot hnot
  unfold Project.runmode Project._get_status Project.set_runmode Project._set_status
  simp only [ProjectRunMode.pyName]
  rw [hw]
  simp [ProjectRunMode.members, ProjectRunMode.ofNameD]

/-- Root tree of the C5 witness: a fresh project, no status file yet. -/
def roundtripFs : FSNode :=
  FSNode.dir [(CONF_FILENAME, FSNode.file "project_name: x")]

/-- The C5 witness project: rooted at the filesystem root of
`roundtripFs`, no `default_runmode` configured. -/
def roundtripProject : Project :=
  { root := []
    config := [("project_name", "x")]
    base_image := "derex/openedx-ironwood:latest"
    final_base_image := "derex/openedx-nostatic:latest"
    name := "x"
    local_compose := none
    requirements_dir := none
    themes_dir := none
    settings_dir := none
    fixtures_dir := none
    requirements_image_tag := "derex/openedx-ironwood:latest"
    themes_image_tag := "derex/openedx-ironwood:latest"
    image_tag := "derex/openedx-ironwood:latest"
    mysql_db_name := "x_edxapp" }

theorem runmode_write_read_roundtrip_witness :
    List.lookup "default_runmode" roundtripProject.config = none
    ∧ roundtripProject.runmode
        (roundtripProject.set_runmode roundtripFs ProjectRunMode.production)
      = (ProjectRunMode.production, []) :=
  ⟨by rfl,
   runmode_write_read_roundtrip roundtripFs roundtripProject
     [(CONF_FILENAME, FSNode.file "project_name: x")] (by rfl) (by rfl) (by rfl)⟩

/-- Root tree of the C6 counterexample: the persisted `runmode` status
file carries a member name with a trailing newline. -/
def trailingNewlineFs : FSNode :=
  FSNode.dir [(CONF_FILENAME, FSNode.file "project_name: x"),
    ("runmode", FSNode.file "production\n")]

/-- A project over `trailingNewlineFs`; its configuration sets
`default_runmode` to `debug`, so the two readings disagree observably. -/
def trailingNewlineProject : Project :=
  { root := []
    config := [("project_name", "x"), ("default_runmode", "debug")]
    base_image := "derex/openedx-ironwood:latest"
    final_base_image := "derex/openedx-nostatic:latest"
    name := "x"
    local_compose := none
    requirements_dir := none
    themes_dir := none
    settings_dir := none
    fixtures_dir := none
    requirements_image_tag := "derex/openedx-ironwood:latest"
    themes_image_tag := "derex/openedx-ironwood:latest"
    image_tag := "derex/openedx-ironwood:latest"
    mysql_db_name := "x_edxapp" }

/-- C6 counterexample to the claim as stated: the status file's content
`"production\n"` trims (Python `str.strip`) to the member name
`production`, so parsing the trimmed content would return `production`;
the code compares the exact untrimmed text against the member names,
treats it as unrecognized, warns, and falls back to `debug`. -/
theorem runmode_trimming_counterexample :
    pyStrip "production\n" = "production"
    ∧ "production" ∈ ProjectRunMode.members
    ∧ trailingNewlineProject._get_status trailingNewlineFs "runmode" = some "production\n"
    ∧ trailingNewlineProject.runmode trailingNewlineFs
        = (ProjectRunMode.debug, [Warning.invalidStatusFile "production\n"]) :=
  ⟨by decide, by decide, by rfl, by rfl⟩

/-- C6 (amended): the status file's exact text content — untrimmed —
is parsed as an enum member; any content that is not exactly a member
name (a member name with surrounding whitespace included) logs a
warning and resolution falls through to the configured
`default_runmode` (itself warned and skipped when invalid or falsy) and
finally to the hard-coded default `debug`; reading never fails, it
always produces a mode. -/
theorem runmode_unrecognized_fallback (fs : FSNode) (p : Project) (s : String)
    (hs : p._get_status fs "runmode" = some s)
    (hmem : s ∉ ProjectRunMode.members) :
    (p.runmode fs).2.head? = some (Warning.invalidStatusFile s)
    ∧ (p.runmode fs).1
        = (match List.lookup "default_runmode" p.config with
           | some d => if d ∈ ProjectRunMode.members then ProjectRunMode.ofNameD d
                       else ProjectRunMode.debug
           | none => ProjectRunMode.debug) := by
  unfold Project.runmode
  simp only [hs]
  rw [if_neg hmem]
  refine ⟨rfl, ?_⟩
  unfold Project.runmodeDefault
  cases List.lookup "default_runmode" p.config with
  | none => rfl
  | some d =>
    dsimp only
    by_cases hne : d = ""
    · subst hne; rfl
    · rw [if_pos hne]
      by_cases hm : d ∈ ProjectRunMode.members
      · rw [if_pos hm, if_pos hm]
      · rw [if_neg hm, if_neg hm]

/-- Root tree of the C6 witness: an unrecognized status value `prod`. -/
def fallbackFs : FSNode :=
  FSNode.dir [(CONF_FILENAME, FSNode.file "project_name: x"),
    ("runmode", FSNode.file "prod")]

/-- The C6 witness project, with a valid configured default
`production` for the resolution to fall through to. -/
def fallbackProject : Project :=
  { root := []
    config := [("project_name", "x"), ("default_runmode", "production")]
    base_image := "derex/openedx-ironwood:latest"
    final_base_image := "derex/openedx-nostatic:latest"
    name := "x"
    local_compose := none
    requirements_dir := none
    themes_dir := none
    settings_dir := none
    fixtures_dir := none
    requirements_image_tag := "derex/openedx-ironwood:latest"
    themes_image_tag := "derex/openedx-ironwood:latest"
    image_tag := "derex/openedx-ironwood:latest"
    mysql_db_name := "x_edxapp" }

theorem runmode_unrecognized_fallback_witness :
    ("prod" ∉ ProjectRunMode.members)
    ∧ (fallbackProject.runmode fallbackFs).2.head?
        = some (Warning.invalidStatusFile "prod")
    ∧ (fallbackProject.runmode fallbackFs).1 = ProjectRunMode.production :=
  ⟨by decide,
   (runmode_unrecognized_fallback fallbackFs fallbackProject "prod"
     (by rfl) (by decide)).1,
   ((runmode_unrecognized_fallback fallbackFs fallbackProject "prod"
     (by rfl) (by decide)).2).trans (by rfl)⟩

end DerexRunner
